import Mathlib

/-!
Verification of the Liquity off-chain accounting library.

The embedding follows `src/packages/lib/src/Liquity.ts` (Trove,
TroveWithPendingRewards, StabilityDeposit, the hint resolver and the
debounced watch machinery) and `src/packages/lib-base/src/StabilityDeposit.ts`.

The `@liquity/decimal` package (the `Decimal` and `Difference` types) is not
part of the sources; its behaviour is modelled from the specification
(section 3 and section 4.1): a signed decimal stored as an integer mantissa at
the wire scale of 10^18, with an "infinite ratio" sentinel returned by
division by zero, exact `mulDiv`, and multiplication by zero short-circuiting
to exact zero.
-/

namespace LiquityLib

/-- Modelled from the spec: the `Decimal` type of the `@liquity/decimal`
package, which is not under the sources.  A signed decimal is an integer
mantissa at the fixed scale `DIGITS = 10^18`; `inf` is the distinguished
"infinite ratio" sentinel produced by division by zero. -/
inductive Decimal where
  | fin (mantissa : Int)
  | inf
deriving DecidableEq, Repr

/-- The fixed scale of the wire format: 10^18. -/
def Decimal.DIGITS : Int := 10 ^ 18

/-- Modelled from the spec: addition of decimals; the infinite sentinel
absorbs. -/
def Decimal.add : Decimal → Decimal → Decimal
  | .fin a, .fin b => .fin (a + b)
  | _, _ => .inf

/-- Modelled from the spec: subtraction of decimals (signed, so the result of
subtracting a larger value is negative); the infinite sentinel absorbs. -/
def Decimal.sub : Decimal → Decimal → Decimal
  | .fin a, .fin b => .fin (a - b)
  | _, _ => .inf

/-- Is this decimal exactly zero? -/
def Decimal.isZero : Decimal → Bool
  | .fin m => decide (m = 0)
  | .inf => false

/-- Is this decimal the infinite sentinel? -/
def Decimal.infinite : Decimal → Bool
  | .fin _ => false
  | .inf => true

/-- Modelled from the spec: fixed-scale multiplication, the product of the
mantissas scaled back down by `DIGITS`.  Multiplication by an exact zero
short-circuits to exact zero even against the infinite sentinel. -/
def Decimal.mul : Decimal → Decimal → Decimal
  | .fin a, .fin b => .fin (Int.fdiv (a * b) Decimal.DIGITS)
  | a, b => if a.isZero || b.isZero then .fin 0 else .inf

/-- Modelled from the spec: `mulDiv a b c` computes `a*b/c` with full
intermediate precision; division by zero yields the infinite sentinel, not an
error. -/
def Decimal.mulDiv (a b c : Decimal) : Decimal :=
  if c.isZero then .inf
  else
    match a, b, c with
    | .fin x, .fin y, .fin z => .fin (Int.fdiv (x * y) z)
    | _, _, _ => .inf

/-- Modelled from the spec: strict greater-than comparison; the infinite
sentinel is above every finite value. -/
def Decimal.gt : Decimal → Decimal → Bool
  | .fin a, .fin b => decide (b < a)
  | .inf, .fin _ => true
  | _, _ => false

/-- Modelled from the spec: strict less-than comparison. -/
def Decimal.lt : Decimal → Decimal → Bool
  | .fin a, .fin b => decide (a < b)
  | .fin _, .inf => true
  | _, _ => false

/-- Modelled from the spec: non-strict comparison. -/
def Decimal.le : Decimal → Decimal → Bool
  | .fin a, .fin b => decide (a ≤ b)
  | .inf, .fin _ => false
  | _, _ => true

/-- Equality test on decimals. -/
def Decimal.eq : Decimal → Decimal → Bool
  | .fin a, .fin b => decide (a = b)
  | .inf, .inf => true
  | _, _ => false

/-- Is this decimal strictly negative? -/
def Decimal.isNegative : Decimal → Bool
  | .fin m => decide (m < 0)
  | .inf => false

/-- Modelled from the spec: the signed delta between two decimals, classified
as positive, negative or zero, carrying its absolute value
(`Difference.between(that, this)` in the sources). -/
inductive Difference where
  | positive (absoluteValue : Decimal)
  | negative (absoluteValue : Decimal)
  | zero
deriving DecidableEq, Repr

/-- Modelled from the spec: `Difference.between d1 d2` classifies `d1 - d2`. -/
def Difference.between (d1 d2 : Decimal) : Difference :=
  if d1.gt d2 then .positive (d1.sub d2)
  else if d1.lt d2 then .negative (d2.sub d1)
  else .zero

/-- A collateralized position: `Trove` from `src/packages/lib/src/Liquity.ts`. -/
structure Trove where
  collateral : Decimal
  debt : Decimal
deriving DecidableEq, Repr

/-- `calculateCollateralRatio` from the sources:
`collateral.mulDiv(price, debt)`. -/
def calculateCollateralRatio (collateral debt : Decimal) (price : Decimal) : Decimal :=
  collateral.mulDiv price debt

/-- `Trove.collateralRatio` from the sources. -/
def Trove.collateralRatio (t : Trove) (price : Decimal) : Decimal :=
  calculateCollateralRatio t.collateral t.debt price

/-- `Trove.add` from the sources: componentwise addition. -/
def Trove.add (t that : Trove) : Trove :=
  ⟨t.collateral.add that.collateral, t.debt.add that.debt⟩

/-- `Trove.addCollateral` from the sources (the omitted debt defaults to 0). -/
def Trove.addCollateral (t : Trove) (collateral : Decimal) : Trove :=
  t.add ⟨collateral, .fin 0⟩

/-- `Trove.addDebt` from the sources. -/
def Trove.addDebt (t : Trove) (debt : Decimal) : Trove :=
  t.add ⟨.fin 0, debt⟩

/-- `Trove.subtract` from the sources: componentwise subtraction. -/
def Trove.subtract (t that : Trove) : Trove :=
  ⟨t.collateral.sub that.collateral, t.debt.sub that.debt⟩

/-- `Trove.subtractCollateral` from the sources. -/
def Trove.subtractCollateral (t : Trove) (collateral : Decimal) : Trove :=
  t.subtract ⟨collateral, .fin 0⟩

/-- `Trove.subtractDebt` from the sources. -/
def Trove.subtractDebt (t : Trove) (debt : Decimal) : Trove :=
  t.subtract ⟨.fin 0, debt⟩

/-- `Trove.multiply` from the sources: both components scaled by the
multiplier. -/
def Trove.multiply (t : Trove) (multiplier : Decimal) : Trove :=
  ⟨t.collateral.mul multiplier, t.debt.mul multiplier⟩

/-- `Trove.setCollateral` from the sources. -/
def Trove.setCollateral (t : Trove) (collateral : Decimal) : Trove :=
  ⟨collateral, t.debt⟩

/-- `Trove.setDebt` from the sources. -/
def Trove.setDebt (t : Trove) (debt : Decimal) : Trove :=
  ⟨t.collateral, debt⟩

/-- `Trove.equals` from the sources. -/
def Trove.equals (t that : Trove) : Bool :=
  t.collateral.eq that.collateral && t.debt.eq that.debt

/-- The `TroveChange` record from the sources: a pair of optional
differences. -/
structure TroveChange where
  collateralDifference : Option Difference
  debtDifference : Option Difference
deriving DecidableEq, Repr

/-- `Trove.whatChanged` from the sources: a difference is recorded for a
component only when it changed. -/
def Trove.whatChanged (t that : Trove) : TroveChange :=
  ⟨if that.collateral.eq t.collateral then none
    else some (Difference.between that.collateral t.collateral),
   if that.debt.eq t.debt then none
    else some (Difference.between that.debt t.debt)⟩

/-- `Trove.applyCollateralDifference` from the sources: a negative difference
larger than the collateral clamps the collateral to zero. -/
def Trove.applyCollateralDifference (t : Trove) : Option Difference → Trove
  | some (.positive v) => t.addCollateral v
  | some (.negative v) =>
      if v.lt t.collateral then t.subtractCollateral v else t.setCollateral (.fin 0)
  | _ => t

/-- `Trove.applyDebtDifference` from the sources.  Note that the guard of the
negative branch compares the debt delta against `t.collateral`, exactly as the
source does on line 153 of `Liquity.ts`. -/
def Trove.applyDebtDifference (t : Trove) : Option Difference → Trove
  | some (.positive v) => t.addDebt v
  | some (.negative v) =>
      if v.lt t.collateral then t.subtractDebt v else t.setDebt (.fin 0)
  | _ => t

/-- `Trove.apply` from the sources. -/
def Trove.apply (t : Trove) (change : TroveChange) : Trove :=
  (t.applyCollateralDifference change.collateralDifference).applyDebtDifference
    change.debtDifference

/-- `TroveWithPendingRewards` from the sources: a trove together with its
stake and its snapshot of the protocol-wide redistribution totals. -/
structure TroveWithPendingRewards extends Trove where
  stake : Decimal
  snapshotOfTotalRedistributed : Trove
deriving DecidableEq, Repr

/-- `TroveWithPendingRewards.applyRewards` from the sources:
`this.add(totalRedistributed.subtract(snapshot).multiply(stake))`. -/
def TroveWithPendingRewards.applyRewards (t : TroveWithPendingRewards)
    (totalRedistributed : Trove) : Trove :=
  t.toTrove.add
    ((totalRedistributed.subtract t.snapshotOfTotalRedistributed).multiply t.stake)

/-- `StabilityDeposit` from `src/packages/lib/src/Liquity.ts`. -/
structure StabilityDeposit where
  deposit : Decimal
  pendingCollateralGain : Decimal
  pendingDepositLoss : Decimal
deriving DecidableEq, Repr

/-- The `StabilityDeposit` constructor from the sources: the stored loss is
the raw loss when the deposit strictly exceeds it, and the whole deposit
otherwise. -/
def StabilityDeposit.create (deposit pendingCollateralGain pendingDepositLoss : Decimal) :
    StabilityDeposit :=
  ⟨deposit, pendingCollateralGain,
    if deposit.gt pendingDepositLoss then pendingDepositLoss else deposit⟩

/-- `StabilityDeposit.depositAfterLoss` from the sources. -/
def StabilityDeposit.depositAfterLoss (sd : StabilityDeposit) : Decimal :=
  sd.deposit.sub sd.pendingDepositLoss

/-- The null address constant used by the hint resolver. -/
def AddressZero : String := "0x0000000000000000000000000000000000000000"

/-- A remote read issued by the hint resolver, in the order it is issued. -/
inductive RemoteCall where
  | getNumberOfTroves
  | getApproxHint (collateralRatio : Decimal) (numberOfTrials : Nat)
  | findInsertPosition (collateralRatio price : Decimal) (hint : String)
deriving DecidableEq, Repr

/-- Is this remote call the approximate-hint sampling request? -/
def RemoteCall.isSampling : RemoteCall → Bool
  | .getApproxHint _ _ => true
  | _ => false

/-- The remote environment the hint resolver reads from: the `useHint` flag,
the current list size, and the responses of the two protocol-specific read
operations (`getApproxHint` and `findInsertPosition`). -/
structure HintEnv where
  useHint : Bool
  numberOfTroves : Nat
  approxHint : Decimal → Nat → String
  insertPosition : Decimal → Decimal → String → String

/-- `Math.ceil(Math.sqrt n)` on natural numbers. -/
def ceilSqrt (n : Nat) : Nat :=
  if Nat.sqrt n * Nat.sqrt n = n then Nat.sqrt n else Nat.sqrt n + 1

/-- `Liquity._findHintForCollateralRatio` from the sources, returning the hint
together with the list of remote reads it issued: nothing when hinting is
disabled; only the list-size read when the list is empty or the target ratio
is infinite; otherwise the size read, the `ceil(sqrt(N))`-trial sampling
request and the exact positional search. -/
def findHintForCollateralRatio (env : HintEnv) (collateralRatio price : Decimal)
    (address : String) : String × List RemoteCall :=
  if env.useHint = false then (address, [])
  else if env.numberOfTroves = 0 ∨ collateralRatio.infinite = true then
    (AddressZero, [.getNumberOfTroves])
  else
    let numberOfTrials := ceilSqrt env.numberOfTroves
    let approxHint := env.approxHint collateralRatio numberOfTrials
    let hint := env.insertPosition collateralRatio price approxHint
    (hint, [.getNumberOfTroves, .getApproxHint collateralRatio numberOfTrials,
            .findInsertPosition collateralRatio price approxHint])

/-- The argument of `Liquity._findHint`: either a plain `Trove` or a
`TroveWithPendingRewards` (the TS code distinguishes them by `instanceof`). -/
inductive FindHintInput where
  | plain (t : Trove)
  | withPendingRewards (t : TroveWithPendingRewards)

/-- `Liquity._findHint` from the sources: a `TroveWithPendingRewards` is
rejected with an error; a plain trove's current collateral ratio is handed to
`_findHintForCollateralRatio`. -/
def findHint (env : HintEnv) (t : FindHintInput) (price : Decimal) (address : String) :
    Except String (String × List RemoteCall) :=
  match t with
  | .withPendingRewards _ => .error "Rewards must be applied to this Trove"
  | .plain t => .ok (findHintForCollateralRatio env (t.collateralRatio price) price address)

/-- The observable state of one `watch` subscription and its debounced
listener (`debounce` plus a `watch` method from the sources): whether the
contract listener is still attached, whether a debounce timer is pending, the
running maximum block number, and the block tags with which the re-fetch and
its callback have fired, in order. -/
structure WatchState where
  subscribed : Bool
  timerPending : Bool
  latestBlock : Nat
  callbacks : List Nat
deriving DecidableEq, Repr

/-- The state of a freshly registered `watch` subscription. -/
def watchInit : WatchState := ⟨true, false, 0, []⟩

/-- One observable step of a `watch` subscription. -/
inductive WatchAction where
  | event (blockNumber : Option Nat)
  | fire
  | unsubscribe
deriving DecidableEq, Repr

/-- The transition function of a `watch` subscription, from the sources:
a qualifying event reaches the debounced listener only while the contract
listener is attached, raises the running block maximum and (re)arms the
debounce timer; a timer expiry performs the single coalesced re-fetch keyed by
the running maximum and invokes the callback; the unsubscribe closure only
detaches the contract listener — it does not clear a pending timer. -/
def watchStep (s : WatchState) : WatchAction → WatchState
  | .event b =>
    if s.subscribed then
      let latest :=
        match b with
        | some n => if n > s.latestBlock then n else s.latestBlock
        | none => s.latestBlock
      ⟨s.subscribed, true, latest, s.callbacks⟩
    else s
  | .fire =>
    if s.timerPending then ⟨s.subscribed, false, s.latestBlock, s.callbacks ++ [s.latestBlock]⟩
    else s
  | .unsubscribe => ⟨false, s.timerPending, s.latestBlock, s.callbacks⟩

/-- Run a sequence of observable steps of a `watch` subscription. -/
def watchRun (s : WatchState) : List WatchAction → WatchState
  | [] => s
  | a :: rest => watchRun (watchStep s a) rest

end LiquityLib

namespace LiquityBase

open LiquityLib (Decimal)

/-- `StabilityDeposit` from `src/packages/lib-base/src/StabilityDeposit.ts`. -/
structure StabilityDeposit where
  initialLUSD : Decimal
  currentLUSD : Decimal
  collateralGain : Decimal
  lqtyReward : Decimal
deriving DecidableEq, Repr

/-- The lib-base `StabilityDeposit` constructor: `currentLUSD` defaults to
`initialLUSD` when omitted, and construction fails when the supplied
`currentLUSD` is strictly greater than `initialLUSD`. -/
def StabilityDeposit.create (initialLUSD : Decimal) (currentLUSD : Option Decimal)
    (collateralGain lqtyReward : Decimal) : Except String StabilityDeposit :=
  let current := currentLUSD.getD initialLUSD
  if current.gt initialLUSD then
    .error "currentLUSD cannot be greater than initialLUSD"
  else
    .ok ⟨initialLUSD, current, collateralGain, lqtyReward⟩

end LiquityBase

namespace LiquityLib

/-- Multiplying any decimal by an exact zero yields exact zero. -/
theorem Decimal.mul_fin_zero (a : Decimal) : a.mul (.fin 0) = .fin 0 := by
  cases a with
  | fin m => simp [Decimal.mul, Decimal.DIGITS]
  | inf => simp [Decimal.mul, Decimal.isZero]

/-- Adding an exact zero leaves a decimal unchanged. -/
theorem Decimal.add_fin_zero (a : Decimal) : a.add (.fin 0) = a := by
  cases a with
  | fin m => simp [Decimal.add]
  | inf => rfl

/-- A decimal that is not strictly greater is less than or equal. -/
theorem Decimal.le_of_gt_eq_false (a b : Decimal) (h : a.gt b = false) : a.le b = true := by
  cases a <;> cases b <;> simp_all [Decimal.gt, Decimal.le]

/-- No decimal is strictly greater than itself. -/
theorem Decimal.gt_self_eq_false (a : Decimal) : a.gt a = false := by
  cases a <;> simp [Decimal.gt]

/-- C1.  Redistribution correctness: for a position with stake `S`, raw
collateral `c`, raw debt `d` and snapshot `(c0, d0)`, and redistribution
totals `(c1, d1)` with `c1 ≥ c0` and `d1 ≥ d0`, `applyRewards` returns exactly
collateral `c + S*(c1-c0)` and debt `d + S*(d1-d0)` in fixed-point
arithmetic. -/
theorem applyRewards_redistribution_exact (c d S c0 d0 c1 d1 : Int)
    (hc : c0 ≤ c1) (hd : d0 ≤ d1) :
    TroveWithPendingRewards.applyRewards
        ⟨⟨.fin c, .fin d⟩, .fin S, ⟨.fin c0, .fin d0⟩⟩ ⟨.fin c1, .fin d1⟩ =
      ⟨.fin (c + Int.fdiv (S * (c1 - c0)) Decimal.DIGITS),
       .fin (d + Int.fdiv (S * (d1 - d0)) Decimal.DIGITS)⟩ := by
  simp only [TroveWithPendingRewards.applyRewards, Trove.subtract, Trove.multiply, Trove.add,
    Decimal.sub, Decimal.mul, Decimal.add]
  rw [Int.mul_comm S (c1 - c0), Int.mul_comm S (d1 - d0)]

/-- Witness for C1: the spec's end-to-end scenario, stake 2, snapshot
`(10, 5)`, totals `(14, 7)`. -/
theorem applyRewards_redistribution_exact_witness :
    TroveWithPendingRewards.applyRewards
        ⟨⟨.fin 0, .fin 0⟩, .fin 2, ⟨.fin 10, .fin 5⟩⟩ ⟨.fin 14, .fin 7⟩ =
      ⟨.fin (0 + Int.fdiv (2 * (14 - 10)) Decimal.DIGITS),
       .fin (0 + Int.fdiv (2 * (7 - 5)) Decimal.DIGITS)⟩ :=
  applyRewards_redistribution_exact 0 0 2 10 5 14 7 (by decide) (by decide)

/-- C2.  The `StabilityDeposit` constructor clamps the loss: a raw loss
greater than the deposit is stored as the deposit itself (full wipeout, never
more); in every case the stored loss is at most the deposit, and
`depositAfterLoss` is never negative. -/
theorem stabilityDeposit_loss_clamped (D G L : Int) :
    ((Decimal.fin L).gt (.fin D) = true →
      (StabilityDeposit.create (.fin D) (.fin G) (.fin L)).pendingDepositLoss = .fin D)
    ∧ ((StabilityDeposit.create (.fin D) (.fin G) (.fin L)).pendingDepositLoss.le (.fin D)
        = true)
    ∧ (StabilityDeposit.create (.fin D) (.fin G) (.fin L)).depositAfterLoss.isNegative
        = false := by
  have hcreate : StabilityDeposit.create (.fin D) (.fin G) (.fin L) =
      ⟨.fin D, .fin G, if L < D then .fin L else .fin D⟩ := by
    simp only [StabilityDeposit.create, Decimal.gt, decide_eq_true_eq]
  rw [hcreate]
  refine ⟨?_, ?_, ?_⟩
  · intro hgt
    have hlt : D < L := by simpa [Decimal.gt] using hgt
    simp only [if_neg (by omega : ¬ L < D)]
  · by_cases h : L < D
    · simp only [if_pos h, Decimal.le, decide_eq_true_eq]
      omega
    · simp only [if_neg h, Decimal.le, decide_eq_true_eq]
      omega
  · by_cases h : L < D
    · simp only [if_pos h, StabilityDeposit.depositAfterLoss, Decimal.sub, Decimal.isNegative,
        decide_eq_false_iff_not]
      omega
    · simp only [if_neg h, StabilityDeposit.depositAfterLoss, Decimal.sub, Decimal.isNegative,
        decide_eq_false_iff_not]
      omega

/-- Witness for C2: the spec's scenario of deposit 5 and raw loss 10. -/
theorem stabilityDeposit_loss_clamped_witness :
    (StabilityDeposit.create (.fin 5) (.fin 0) (.fin 10)).pendingDepositLoss = .fin 5
    ∧ ((StabilityDeposit.create (.fin 5) (.fin 0) (.fin 10)).pendingDepositLoss.le (.fin 5)
        = true)
    ∧ (StabilityDeposit.create (.fin 5) (.fin 0) (.fin 10)).depositAfterLoss.isNegative
        = false :=
  ⟨(stabilityDeposit_loss_clamped 5 0 10).1 (by decide),
   (stabilityDeposit_loss_clamped 5 0 10).2.1,
   (stabilityDeposit_loss_clamped 5 0 10).2.2⟩

/-- C3.  For every trove whose components are finite decimals and every finite
price, the collateral ratio is the infinite sentinel exactly when the debt is
zero: division by zero debt yields the defined sentinel, not an error. -/
theorem collateralRatio_infinite_iff_zero_debt (t : Trove) (price : Decimal)
    (hc : t.collateral ≠ .inf) (hd : t.debt ≠ .inf) (hp : price ≠ .inf) :
    ((Trove.collateralRatio t price).infinite = true) ↔ (t.debt.isZero = true) := by
  obtain ⟨c, d⟩ := t
  cases c with
  | inf => exact absurd rfl hc
  | fin mc =>
    cases d with
    | inf => exact absurd rfl hd
    | fin md =>
      cases price with
      | inf => exact absurd rfl hp
      | fin mp =>
        simp only [Trove.collateralRatio, calculateCollateralRatio, Decimal.mulDiv,
          Decimal.isZero, decide_eq_true_eq]
        by_cases h : md = 0
        · simp [h, Decimal.infinite]
        · simp [h, Decimal.infinite]

/-- Witness for C3: a trove with zero debt has an infinite ratio. -/
theorem collateralRatio_infinite_iff_zero_debt_witness :
    ((Trove.collateralRatio ⟨.fin 5, .fin 0⟩ (.fin 3)).infinite = true)
      ↔ ((Decimal.fin 0).isZero = true) := by
  exact collateralRatio_infinite_iff_zero_debt ⟨.fin 5, .fin 0⟩ (.fin 3)
    (by decide) (by decide) (by decide)

/-- C9.  A zero-stake position receives exactly zero reward: `applyRewards`
returns the raw collateral and debt unchanged for every value of the
redistribution totals, including totals below the snapshot. -/
theorem applyRewards_zero_stake (t : TroveWithPendingRewards) (total : Trove)
    (h : t.stake.isZero = true) :
    TroveWithPendingRewards.applyRewards t total = t.toTrove := by
  obtain ⟨⟨c, d⟩, stake, snap⟩ := t
  cases stake with
  | inf => simp [Decimal.isZero] at h
  | fin m =>
    simp only [Decimal.isZero, decide_eq_true_eq] at h
    subst h
    simp only [TroveWithPendingRewards.applyRewards, Trove.multiply, Trove.add,
      Decimal.mul_fin_zero, Decimal.add_fin_zero]

/-- Witness for C9: a zero-stake position whose snapshot exceeds the totals
still comes back unchanged. -/
theorem applyRewards_zero_stake_witness :
    TroveWithPendingRewards.applyRewards
        ⟨⟨.fin 7, .fin 8⟩, .fin 0, ⟨.fin 100, .fin 100⟩⟩ ⟨.fin 3, .fin 2⟩ =
      Trove.mk (.fin 7) (.fin 8) := by
  exact applyRewards_zero_stake ⟨⟨.fin 7, .fin 8⟩, .fin 0, ⟨.fin 100, .fin 100⟩⟩
    ⟨.fin 3, .fin 2⟩ (by decide)

/-- Counterexample for C4.  `collateralRatio` invoked on a
`TroveWithPendingRewards` does not fail: being inherited unchanged from
`Trove`, it returns the ratio computed from the raw collateral and debt.  At
a position with raw collateral 2, raw debt 1, stake 1.0, empty snapshot and
totals `(10, 10)` at price 1.0, the call returns the reward-unaware value,
which differs from the ratio of the rewards-applied position. -/
theorem collateralRatio_ignores_pending_rewards :
    Trove.collateralRatio
        (TroveWithPendingRewards.toTrove
          ⟨⟨.fin 2, .fin 1⟩, .fin Decimal.DIGITS, ⟨.fin 0, .fin 0⟩⟩)
        (.fin Decimal.DIGITS)
      = .fin (2 * Decimal.DIGITS)
    ∧ Trove.collateralRatio
        (TroveWithPendingRewards.applyRewards
          ⟨⟨.fin 2, .fin 1⟩, .fin Decimal.DIGITS, ⟨.fin 0, .fin 0⟩⟩ ⟨.fin 10, .fin 10⟩)
        (.fin Decimal.DIGITS)
      ≠ .fin (2 * Decimal.DIGITS) := by decide

/-- C4 (amended).  Only the hint lookup fails fast: `_findHint` on a
`TroveWithPendingRewards` returns the unapplied-rewards error for every
environment, price and address, while a plain trove is handed to
`_findHintForCollateralRatio` at its current ratio.  (`collateralRatio`
itself performs no such check; see the counterexample.) -/
theorem findHint_rejects_unapplied_rewards (env : HintEnv)
    (t : TroveWithPendingRewards) (price : Decimal) (address : String) :
    findHint env (.withPendingRewards t) price address =
      Except.error "Rewards must be applied to this Trove"
    ∧ ∀ t2 : Trove, findHint env (.plain t2) price address =
        Except.ok (findHintForCollateralRatio env (Trove.collateralRatio t2 price)
          price address) :=
  ⟨rfl, fun _ => rfl⟩

/-- Evidence for C5.  Replaying `whatChanged` does not reproduce the target
trove: with `t1 = (collateral 1, debt 10)` and `t2 = (collateral 1, debt 5)`,
the negative debt difference of 5 is compared against the *collateral* bound
(Liquity.ts line 153), so the debt is clamped to 0 instead of being reduced
to 5. -/
theorem apply_whatChanged_fails_roundtrip :
    Trove.apply ⟨.fin 1, .fin 10⟩
        (Trove.whatChanged ⟨.fin 1, .fin 10⟩ ⟨.fin 1, .fin 5⟩)
      = Trove.mk (.fin 1) (.fin 0)
    ∧ Trove.apply ⟨.fin 1, .fin 10⟩
        (Trove.whatChanged ⟨.fin 1, .fin 10⟩ ⟨.fin 1, .fin 5⟩)
      ≠ Trove.mk (.fin 1) (.fin 5) := by decide

/-- C6.  `_findHintForCollateralRatio` settles the degenerate cases without
any sampling request: the caller's own address (and no remote read at all)
when hinting is disabled, and the null address after only the list-size read
when the remote list is empty or the target ratio is infinite. -/
theorem findHintForCollateralRatio_degenerate (env : HintEnv) (cr price : Decimal)
    (address : String) :
    (env.useHint = false → findHintForCollateralRatio env cr price address = (address, []))
    ∧ (env.useHint = true → env.numberOfTroves = 0 →
        (findHintForCollateralRatio env cr price address).1 = AddressZero
        ∧ ∀ call ∈ (findHintForCollateralRatio env cr price address).2,
            RemoteCall.isSampling call = false)
    ∧ (env.useHint = true → cr.infinite = true →
        (findHintForCollateralRatio env cr price address).1 = AddressZero
        ∧ ∀ call ∈ (findHintForCollateralRatio env cr price address).2,
            RemoteCall.isSampling call = false) := by
  refine ⟨?_, ?_, ?_⟩
  · intro h
    simp [findHintForCollateralRatio, h]
  · intro h hn
    simp [findHintForCollateralRatio, h, hn, RemoteCall.isSampling]
  · intro h hinf
    simp [findHintForCollateralRatio, h, hinf, RemoteCall.isSampling]

/-- A concrete remote environment for the hint-resolver witness: hinting
enabled over an empty remote list. -/
def emptyListHintEnv : HintEnv :=
  ⟨true, 0, fun _ _ => AddressZero, fun _ _ _ => AddressZero⟩

/-- Witness for C6: with hinting enabled and an empty remote list, the
resolver returns the null address and issues no sampling call. -/
theorem findHintForCollateralRatio_degenerate_witness :
    (findHintForCollateralRatio emptyListHintEnv (.fin 1) (.fin 1) "0xcaller").1
      = AddressZero
    ∧ ∀ call ∈ (findHintForCollateralRatio emptyListHintEnv (.fin 1) (.fin 1) "0xcaller").2,
        RemoteCall.isSampling call = false :=
  (findHintForCollateralRatio_degenerate emptyListHintEnv (.fin 1) (.fin 1) "0xcaller").2.1
    rfl rfl

/-- The actions a list of qualifying events maps to. -/
def eventsOf (blocks : List Nat) : List WatchAction :=
  blocks.map (fun b => WatchAction.event (some b))

theorem watchRun_append (s : WatchState) (l1 l2 : List WatchAction) :
    watchRun s (l1 ++ l2) = watchRun (watchRun s l1) l2 := by
  induction l1 generalizing s with
  | nil => rfl
  | cons a rest ih =>
    simp only [List.cons_append, watchRun]
    exact ih (watchStep s a)

theorem watchStep_event_latest (l n : Nat) :
    (if n > l then n else l) = Nat.max l n := by
  split
  · exact (Nat.max_eq_right (Nat.le_of_lt (by assumption))).symm
  · exact (Nat.max_eq_left (Nat.not_lt.mp (by assumption))).symm

theorem watchRun_events (blocks : List Nat) (s : WatchState) (hs : s.subscribed = true) :
    watchRun s (eventsOf blocks) =
      ⟨true, s.timerPending || decide (blocks ≠ []),
       List.foldl Nat.max s.latestBlock blocks, s.callbacks⟩ := by
  induction blocks generalizing s with
  | nil =>
    obtain ⟨sub, pend, latest, cbs⟩ := s
    simp_all [eventsOf, watchRun]
  | cons b rest ih =>
    simp only [eventsOf, List.map_cons, watchRun, watchStep, hs, if_pos,
      watchStep_event_latest] at ih ⊢
    rw [ih _ rfl]
    simp [List.foldl_cons, Bool.or_true]

theorem init_le_foldl_max (blocks : List Nat) (a : Nat) :
    a ≤ List.foldl Nat.max a blocks := by
  induction blocks generalizing a with
  | nil => exact Nat.le_refl a
  | cons b rest ih => exact le_trans (Nat.le_max_left a b) (ih (Nat.max a b))

theorem mem_le_foldl_max (blocks : List Nat) :
    ∀ (a b : Nat), b ∈ blocks → b ≤ List.foldl Nat.max a blocks := by
  induction blocks with
  | nil =>
    intro a b hb
    cases hb
  | cons x rest ih =>
    intro a b hb
    rw [List.foldl_cons]
    rcases List.mem_cons.mp hb with h | h
    · subst h
      exact le_trans (Nat.le_max_right a b) (init_le_foldl_max rest _)
    · exact ih _ _ h

theorem foldl_max_eq_or_mem (blocks : List Nat) :
    ∀ (a : Nat), List.foldl Nat.max a blocks = a ∨ List.foldl Nat.max a blocks ∈ blocks := by
  induction blocks with
  | nil =>
    intro a
    exact Or.inl rfl
  | cons b rest ih =>
    intro a
    rw [List.foldl_cons]
    rcases ih (Nat.max a b) with h | h
    · rw [h]
      rcases Nat.le_total a b with h2 | h2
      · have h3 : Nat.max a b = b := Nat.max_eq_right h2
        rw [h3]
        exact Or.inr (List.mem_cons_self b rest)
      · have h3 : Nat.max a b = a := Nat.max_eq_left h2
        rw [h3]
        exact Or.inl rfl
    · exact Or.inr (List.mem_cons_of_mem b h)

/-- C8.  A burst of `n ≥ 1` qualifying events delivered within one debounce
window (no timer expiry between them) produces exactly one re-fetch and one
callback invocation, keyed by the highest block number among the events; a
further timer expiry changes nothing. -/
theorem debounce_coalesces_burst (blocks : List Nat) (hne : blocks ≠ []) :
    (watchRun watchInit (eventsOf blocks ++ [WatchAction.fire])).callbacks
      = [List.foldl Nat.max 0 blocks]
    ∧ List.foldl Nat.max 0 blocks ∈ blocks
    ∧ (∀ b ∈ blocks, b ≤ List.foldl Nat.max 0 blocks)
    ∧ watchStep (watchRun watchInit (eventsOf blocks ++ [WatchAction.fire]))
        WatchAction.fire
      = watchRun watchInit (eventsOf blocks ++ [WatchAction.fire]) := by
  have h1 : watchRun watchInit (eventsOf blocks ++ [WatchAction.fire]) =
      ⟨true, false, List.foldl Nat.max 0 blocks, [List.foldl Nat.max 0 blocks]⟩ := by
    rw [watchRun_append, watchRun_events blocks watchInit rfl]
    simp [watchRun, watchStep, watchInit, hne]
  refine ⟨by rw [h1], ?_, fun b hb => mem_le_foldl_max blocks 0 b hb, by rw [h1]; rfl⟩
  rcases foldl_max_eq_or_mem blocks 0 with h | h
  · cases blocks with
    | nil => exact absurd rfl hne
    | cons x rest =>
      have hx : x ≤ List.foldl Nat.max 0 (x :: rest) :=
        mem_le_foldl_max (x :: rest) 0 x (List.mem_cons_self x rest)
      rw [h] at hx
      rw [h, Nat.le_zero.mp hx]
      exact List.mem_cons_self 0 rest
  · exact h

/-- Witness for C8: five events with block numbers 3, 7, 5, 7, 4 coalesce to
a single callback keyed by block 7. -/
theorem debounce_coalesces_burst_witness :
    (watchRun watchInit (eventsOf [3, 7, 5, 7, 4] ++ [WatchAction.fire])).callbacks
      = [7] := by
  have h := (debounce_coalesces_burst [3, 7, 5, 7, 4] (by decide)).1
  simpa using h

/-- Counterexample for C7.  The unsubscribe closure only detaches the contract
listener; it does not clear a pending debounce timer.  After one qualifying
event at block 5 followed by unsubscribe, no callback has run yet, but the
still-pending timer fires and invokes the callback. -/
theorem pending_refetch_fires_after_unsubscribe :
    (watchRun watchInit [WatchAction.event (some 5), WatchAction.unsubscribe]).subscribed
      = false
    ∧ (watchRun watchInit [WatchAction.event (some 5), WatchAction.unsubscribe]).callbacks
      = []
    ∧ (watchStep (watchRun watchInit [WatchAction.event (some 5), WatchAction.unsubscribe])
        WatchAction.fire).callbacks
      = [5] := by decide

/-- C7 (amended).  After unsubscribe the listener is detached, so no further
event schedules a re-fetch; but a debounce timer already pending at
unsubscribe still fires: from any unsubscribed state, the callback runs at
most once more (and never again when no timer was pending). -/
theorem unsubscribe_allows_at_most_one_pending_callback (acts : List WatchAction)
    (s : WatchState) (hs : s.subscribed = false) :
    (watchRun s acts).callbacks.length ≤
      s.callbacks.length + (if s.timerPending then 1 else 0) := by
  induction acts generalizing s with
  | nil =>
    simp only [watchRun]
    split
    · exact Nat.le_add_right _ 1
    · exact Nat.le_refl _
  | cons a rest ih =>
    cases a with
    | event b =>
      simp only [watchRun, watchStep, hs, Bool.false_eq_true, if_false]
      exact ih s hs
    | fire =>
      simp only [watchRun, watchStep]
      by_cases hp : s.timerPending
      · rw [if_pos hp]
        have h2 := ih ⟨s.subscribed, false, s.latestBlock, s.callbacks ++ [s.latestBlock]⟩ hs
        simp only [List.length_append, List.length_cons, List.length_nil, if_neg
          (Bool.false_ne_true), Nat.add_zero] at h2
        rw [if_pos hp]
        omega
      · rw [if_neg hp]
        have h2 := ih s hs
        rw [if_neg hp] at h2 ⊢
        exact h2
    | unsubscribe =>
      simp only [watchRun, watchStep]
      have h2 := ih ⟨false, s.timerPending, s.latestBlock, s.callbacks⟩ rfl
      exact h2

/-- Witness for C7 (amended): an unsubscribed state with a pending timer and
an empty callback log sees at most one callback over any further activity. -/
theorem unsubscribe_allows_at_most_one_pending_callback_witness :
    (watchRun ⟨false, true, 3, []⟩
        [WatchAction.fire, WatchAction.event (some 9), WatchAction.fire]).callbacks.length ≤
      (⟨false, true, 3, []⟩ : WatchState).callbacks.length +
        (if (⟨false, true, 3, []⟩ : WatchState).timerPending then 1 else 0) :=
  unsubscribe_allows_at_most_one_pending_callback
    [WatchAction.fire, WatchAction.event (some 9), WatchAction.fire] ⟨false, true, 3, []⟩ rfl

end LiquityLib

namespace LiquityBase

open LiquityLib (Decimal)

/-- C10.  Every successfully constructed lib-base `StabilityDeposit` satisfies
`currentLUSD ≤ initialLUSD`: an omitted `currentLUSD` defaults to
`initialLUSD` (and succeeds), and a supplied `currentLUSD` strictly greater
than `initialLUSD` makes the constructor fail. -/
theorem stabilityDeposit_currentLUSD_le_initialLUSD (i g r : Decimal)
    (cur : Option Decimal) :
    (∀ sd, StabilityDeposit.create i cur g r = .ok sd →
      Decimal.le sd.currentLUSD sd.initialLUSD = true)
    ∧ StabilityDeposit.create i none g r = .ok ⟨i, i, g, r⟩
    ∧ (∀ c, cur = some c → Decimal.gt c i = true →
        StabilityDeposit.create i cur g r =
          .error "currentLUSD cannot be greater than initialLUSD") := by
  refine ⟨?_, ?_, ?_⟩
  · intro sd hok
    cases hgt : Decimal.gt (cur.getD i) i with
    | true =>
      simp only [StabilityDeposit.create, hgt, if_pos] at hok
      cases hok
    | false =>
      simp only [StabilityDeposit.create, hgt, Bool.false_eq_true, if_false,
        Except.ok.injEq] at hok
      subst hok
      exact Decimal.le_of_gt_eq_false _ _ hgt
  · simp only [StabilityDeposit.create, Option.getD_none, Decimal.gt_self_eq_false,
      Bool.false_eq_true, if_false]
  · intro c hc hgt
    subst hc
    simp only [StabilityDeposit.create, Option.getD_some, hgt, if_pos]

/-- Witness for C10: a deposit constructed with `currentLUSD = 3` and
`initialLUSD = 5` satisfies the invariant. -/
theorem stabilityDeposit_currentLUSD_le_initialLUSD_witness :
    Decimal.le (Decimal.fin 3) (Decimal.fin 5) = true := by
  exact (stabilityDeposit_currentLUSD_le_initialLUSD (.fin 5) (.fin 0) (.fin 0)
    (some (.fin 3))).1 ⟨.fin 5, .fin 3, .fin 0, .fin 0⟩ rfl

end LiquityBase
